import Mathlib

/-!
Verification development for the cooklang parsing and scaling engine.

The Rust sources are shallowly embedded: pure structs and enums become Lean
structures and inductives, in-place mutation becomes explicit state passing,
and fallible functions return Except. Machine floats (f64) only ever carry
numeric payloads that no property here inspects up to rounding, so they are
modelled over the exact rationals; u32 is modelled as Nat with the explicit
bound 2^32 where the source can overflow.
-/

namespace Cooklang

/-! ## Spans and basic lexer-facing data (src/parser, src/span.rs interface) -/

/-- Byte span into the original input, half open. The source type has
methods start and end; end is a Lean keyword, so the field is named stop. -/
structure Span where
  start : Nat
  stop : Nat
deriving DecidableEq, Repr

/-- Span.pos in the source: an empty span at a position. -/
def Span.pos (p : Nat) : Span := ⟨p, p⟩

/-- Token kinds used by the quantity grammar and text reconstruction.
Kinds of the wider grammar that the embedded functions never inspect are
represented by the word constructor and friends. -/
inductive TokenKind where
  | int
  | float
  | word
  | ws
  | lineComment
  | blockComment
  | newline
  | escaped
  | bar
  | star
  | percent
  | slash
  | minus
  | eof
deriving DecidableEq, Repr

/-- A token: kind plus byte span (src/parser/token_stream.rs interface). -/
structure Token where
  kind : TokenKind
  span : Span
deriving DecidableEq, Repr

/-- Extract input bytes of a half open range, the slice input[a..b]. -/
def extractRange (input : List Char) (a b : Nat) : List Char :=
  (input.drop a).take (b - a)

/-! ## Parser data model (src/parser/mod.rs, src/parser/block_parser.rs) -/

/-- Extension switches (the bitflags Extensions of the source). -/
structure Extensions where
  advanced_units : Bool
  range_values : Bool
  multiline_steps : Bool
deriving DecidableEq, Repr

/-- ParserError from src/parser/mod.rs. The ParseInt and ParseFloat
variants wrap a std error value in the source; only the span is carried
here, the wrapped value being opaque to every embedded function. -/
inductive ParserError where
  | componentPartMissing (container what : String) (expectedPos : Span)
  | componentPartNotAllowed (container what : String) (toRemove : Span) (help : Option String)
  | componentPartInvalid (container what reason : String)
      (labels : List (Span × Option String)) (help : Option String)
  | duplicateModifiers (modifiersSpan : Span) (dup : String)
  | parseInt (badBit : Span)
  | parseFloat (badBit : Span)
  | divisionByZero (badBit : Span)
  | quantityScalingConflict (badBit : Span)
deriving DecidableEq, Repr

/-- ParserWarning from src/parser/mod.rs, with payloads reduced to spans;
none of the embedded functions constructs a warning. -/
inductive ParserWarning where
  | emptyMetadataValue (key : Span)
  | componentPartIgnored (container what : String) (ignored : Span)
deriving DecidableEq, Repr

/-- The diagnostic events of the parser event stream. Content events
(metadata, sections, steps, items) are out of scope here: the quantity
parser and the recovery combinator only ever emit errors and warnings. -/
inductive Event where
  | error (e : ParserError)
  | warning (w : ParserWarning)
deriving DecidableEq, Repr

/-- A fragment of reconstructed text. Modelled from the spec: ast::Text is
not under src/; the spec describes a sequence of literal fragments and
soft break fragments, each with its source offset. -/
structure TextFragment where
  text : List Char
  offset : Nat
  softBreak : Bool
deriving DecidableEq, Repr

/-- Reconstructed text. Modelled from the spec: an ordered fragment list
with a base offset; a derived trimmed view is computed on demand. -/
structure Text where
  offset : Nat
  fragments : List TextFragment
deriving DecidableEq, Repr

def Text.empty (offset : Nat) : Text := ⟨offset, []⟩

/-- Append a fragment; empty fragments are dropped. -/
def Text.appendFragment (t : Text) (f : TextFragment) : Text :=
  if f.text.isEmpty then t else ⟨t.offset, t.fragments ++ [f]⟩

def Text.appendStr (t : Text) (s : List Char) (offset : Nat) : Text :=
  t.appendFragment ⟨s, offset, false⟩

def TextFragment.softBreakFragment (s : List Char) (offset : Nat) : TextFragment :=
  ⟨s, offset, true⟩

/-- The text content: fragments concatenated. -/
def Text.content (t : Text) : List Char :=
  (t.fragments.map (fun f => f.text)).flatten

/-- Trim whitespace from both ends of a character list. -/
def trimChars (s : List Char) : List Char :=
  ((s.dropWhile Char.isWhitespace).reverse.dropWhile Char.isWhitespace).reverse

def Text.textTrimmed (t : Text) : List Char := trimChars t.content

def Text.isTextEmpty (t : Text) : Bool := t.textTrimmed.isEmpty

/-- The span of reconstructed text, from the base offset to the end of the
last fragment. -/
def Text.span (t : Text) : Span :=
  ⟨t.offset, (t.fragments.getLast?.map (fun f => f.offset + f.text.length)).getD t.offset⟩

/-- Located value with its span (src/located.rs interface). -/
structure Located (α : Type) where
  value : α
  span : Span
deriving DecidableEq, Repr

/-- BlockParser from src/parser/block_parser.rs: a bounded cursor over the
tokens of one block plus the event buffer. The Rust struct borrows the
input and mutates in place; here the whole state is passed explicitly. -/
structure BlockParser where
  base_offset : Nat
  tokens : List Token
  current : Nat
  input : List Char
  extensions : Extensions
  events : List Event
deriving DecidableEq, Repr

def BlockParser.new (base_offset : Nat) (tokens : List Token) (input : List Char)
    (extensions : Extensions) : BlockParser :=
  ⟨base_offset, tokens, 0, input, extensions, []⟩

def BlockParser.extension (s : BlockParser) (f : Extensions → Bool) : Bool :=
  f s.extensions

/-- The not yet parsed tokens. -/
def BlockParser.rest (s : BlockParser) : List Token := s.tokens.drop s.current

/-- The already parsed tokens. -/
def BlockParser.parsed (s : BlockParser) : List Token := s.tokens.take s.current

/-- Peek the next token kind without consuming, Eof at the end. -/
def BlockParser.peek (s : BlockParser) : TokenKind :=
  ((s.tokens.get? s.current).map (fun t => t.kind)).getD .eof

def BlockParser.at_kind (s : BlockParser) (kind : TokenKind) : Bool := s.peek = kind

def BlockParser.next_token (s : BlockParser) : Option Token × BlockParser :=
  match s.tokens.get? s.current with
  | some t => (some t, { s with current := s.current + 1 })
  | none => (none, s)

/-- bump_any panics in the source when no token is left; that branch is
unreachable from every embedded caller (each one peeks first) and returns
a dummy Eof token here. -/
def BlockParser.bump_any (s : BlockParser) : Token × BlockParser :=
  match s.tokens.get? s.current with
  | some t => (t, { s with current := s.current + 1 })
  | none => (⟨.eof, ⟨0, 0⟩⟩, s)

/-- Consume tokens while the predicate holds on the kind. -/
def BlockParser.consume_while (s : BlockParser) (f : TokenKind → Bool) :
    List Token × BlockParser :=
  let r := s.rest
  let pos := (r.findIdx? (fun t => !f t.kind)).getD r.length
  (r.take pos, { s with current := s.current + pos })

def BlockParser.consume_rest (s : BlockParser) : List Token × BlockParser :=
  (s.rest, { s with current := s.current + s.rest.length })

def BlockParser.ws_comments (s : BlockParser) : List Token × BlockParser :=
  s.consume_while (fun t =>
    match t with
    | .ws | .lineComment | .blockComment => true
    | _ => false)

/-- The current offset from the start of input. -/
def BlockParser.current_offset (s : BlockParser) : Nat :=
  ((s.parsed.getLast?).map (fun t => t.span.stop)).getD s.base_offset

/-- Push an error event. -/
def BlockParser.error (s : BlockParser) (e : ParserError) : BlockParser :=
  { s with events := s.events ++ [.error e] }

/-- Push a warning event. -/
def BlockParser.warn (s : BlockParser) (w : ParserWarning) : BlockParser :=
  { s with events := s.events ++ [.warning w] }

/-- with_recover from src/parser/block_parser.rs: run a speculative
sub-parse; when it yields no result only the cursor position is rolled
back, every other state change, the emitted events in particular, is
kept. -/
def BlockParser.with_recover {α : Type} (s : BlockParser)
    (f : BlockParser → Option α × BlockParser) : Option α × BlockParser :=
  let r := f s
  match r.1 with
  | none => (none, { r.2 with current := s.current })
  | some v => (some v, r.2)

/-- The matching input slice of a token. -/
def BlockParser.as_str (s : BlockParser) (t : Token) : List Char :=
  extractRange s.input t.span.start t.span.stop

/-- One step of the text reconstruction walk of BlockParser::text: the
accumulator is the text built so far plus the start and end of the pending
literal run. -/
def textStep (input : List Char) (acc : Text × Nat × Nat) (token : Token) :
    Text × Nat × Nat :=
  let (t, start, stop) := acc
  match token.kind with
  | .newline =>
      (((t.appendStr (extractRange input start stop) start).appendFragment
          (TextFragment.softBreakFragment
            (extractRange input token.span.start token.span.stop) token.span.start)),
        token.span.stop, token.span.stop)
  | .lineComment =>
      (t.appendStr (extractRange input start stop) start, token.span.stop, token.span.stop)
  | .blockComment =>
      (t.appendStr (extractRange input start stop) start, token.span.stop, token.span.stop)
  | .escaped =>
      (t.appendStr (extractRange input start stop) start, token.span.start + 1, token.span.stop)
  | _ => (t, start, token.span.stop)

/-- BlockParser::text from src/parser/block_parser.rs: rebuild a Text from
a token run. The source asserts that offset equals the first token start
and that the tokens are adjacent; both hold at every call site. -/
def BlockParser.text (s : BlockParser) (offset : Nat) (tokens : List Token) : Text :=
  match tokens with
  | [] => Text.empty offset
  | tok0 :: _ =>
      let st0 := tok0.span.start
      let r := tokens.foldl (textStep s.input) (Text.empty offset, st0, st0)
      r.1.appendStr (extractRange s.input r.2.1 r.2.2) r.2.1

/-- Span of a token slice (tokens_span in src/parser/mod.rs; the source
panics on an empty slice, which no embedded caller produces). -/
def tokensSpan (tokens : List Token) : Span :=
  ⟨((tokens.head?).map (fun t => t.span.start)).getD 0,
   ((tokens.getLast?).map (fun t => t.span.stop)).getD 0⟩

/-- Value from src/quantity.rs (that file is not under src/). Modelled from
the spec: a quantity value is a number, an inclusive range, or free text.
The parser and the scaling engine share this type in the source. -/
inductive Value where
  | number (value : ℚ)
  | range (valueStart valueStop : ℚ)
  | text (value : String)
deriving DecidableEq, Repr

/-! ## Numeric value parsing (src/parser/quantity.rs) -/

/-- Decimal digit run to Nat. -/
def digitsVal (s : List Char) : Nat :=
  s.foldl (fun a c => a * 10 + (c.toNat - 48)) 0

/-- The u32 string parse used by fn int: a non-empty digit run whose value
fits in 32 bits; anything else is a parse failure. The lexer only produces
digit runs for Int tokens. -/
def parseU32 (s : List Char) : Option Nat :=
  if s ≠ [] ∧ s.all Char.isDigit then
    let n := digitsVal s
    if n < 4294967296 then some n else none
  else none

/-- The f64 string parse used by fn float, on the decimal forms the lexer
produces for Float tokens; exact rationals stand in for f64. -/
def parseF64 (s : List Char) : Option ℚ :=
  match s.splitOn '.' with
  | [a] => (parseU32 a).map (fun n => (n : ℚ))
  | [a, b] =>
      if a ≠ [] ∧ b ≠ [] ∧ a.all Char.isDigit ∧ b.all Char.isDigit then
        some ((digitsVal a : ℚ) + (digitsVal b : ℚ) / ((10 : ℚ) ^ b.length))
      else none
  | _ => none

/-- fn int from src/parser/quantity.rs: parse the token slice as u32 and
widen to f64 (exact here); failure is a ParseInt error at the token span. -/
def int (tok : Token) (s : BlockParser) : Except ParserError ℚ :=
  match parseU32 (s.as_str tok) with
  | some n => .ok (n : ℚ)
  | none => .error (.parseInt tok.span)

/-- fn float from src/parser/quantity.rs. -/
def float (tok : Token) (s : BlockParser) : Except ParserError ℚ :=
  match parseF64 (s.as_str tok) with
  | some q => .ok q
  | none => .error (.parseFloat tok.span)

/-- fn num from src/parser/quantity.rs; the source panics on other kinds,
which its only caller rules out. -/
def num (t : Token) (s : BlockParser) : Except ParserError ℚ :=
  match t.kind with
  | .int => int t s
  | .float => float t s
  | _ => .error (.parseFloat t.span)

/-- fn frac from src/parser/quantity.rs: a/b with a division by zero error
spanning the whole fraction when b is zero. -/
def frac (a b : Token) (s : BlockParser) : Except ParserError ℚ :=
  let span : Span := ⟨a.span.start, b.span.stop⟩
  match int a s with
  | .error e => .error e
  | .ok av =>
      match int b s with
      | .error e => .error e
      | .ok bv => if bv = 0 then .error (.divisionByZero span) else .ok (av / bv)

/-- fn mixed_num from src/parser/quantity.rs: i + a/b. -/
def mixed_num (i a b : Token) (s : BlockParser) : Except ParserError ℚ :=
  match int i s with
  | .error e => .error e
  | .ok iv =>
      match frac a b s with
      | .error e => .error e
      | .ok f => .ok (iv + f)

/-- fn range from src/parser/quantity.rs. -/
def rangeVal (st en : Token) (s : BlockParser) : Except ParserError (ℚ × ℚ) :=
  match num st s with
  | .error e => .error e
  | .ok a =>
      match num en s with
      | .error e => .error e
      | .ok b => .ok (a, b)

/-- The token filter of numeric_value: whitespace and comments are
ignored. -/
def notWsComment (t : Token) : Bool :=
  match t.kind with
  | .ws | .lineComment | .blockComment => false
  | _ => true

/-- fn numeric_value from src/parser/quantity.rs: the numeric forms in
source precedence over the filtered tokens; anything else is no numeric
value at all (the caller falls back to text). -/
def numeric_value (tokens : List Token) (s : BlockParser) :
    Option (Except ParserError Value) :=
  let filtered := tokens.filter notWsComment
  match filtered with
  | [t] =>
      if t.kind = .int then some ((int t s).map (fun v => Value.number v))
      else if t.kind = .float then some ((float t s).map (fun v => Value.number v))
      else none
  | [i, a, sl, b] =>
      if i.kind = .int ∧ a.kind = .int ∧ sl.kind = .slash ∧ b.kind = .int then
        some ((mixed_num i a b s).map (fun v => Value.number v))
      else none
  | [a, sl, b] =>
      if a.kind = .int ∧ sl.kind = .slash ∧ b.kind = .int then
        some ((frac a b s).map (fun v => Value.number v))
      else if (a.kind = .int ∨ a.kind = .float) ∧ sl.kind = .minus ∧
          (b.kind = .int ∨ b.kind = .float) ∧ s.extensions.range_values then
        some ((rangeVal a b s).map (fun r => Value.range r.1 r.2))
      else none
  | _ => none

instance {ε α : Type} [DecidableEq ε] [DecidableEq α] : DecidableEq (Except ε α) := fun x y =>
  match x, y with
  | .ok a, .ok b =>
      if h : a = b then .isTrue (by rw [h])
      else .isFalse (by intro hx; injection hx; contradiction)
  | .ok _, .error _ => .isFalse (by intro hx; exact Except.noConfusion hx)
  | .error _, .ok _ => .isFalse (by intro hx; exact Except.noConfusion hx)
  | .error e, .error f =>
      if h : e = f then .isTrue (by rw [h])
      else .isFalse (by intro hx; injection hx; contradiction)

/-- The recoverable placeholder substituted for an unparseable value.
Modelled from the spec: context::Recover for Value is not under src/; the
spec only requires a designated placeholder so structure stays intact. -/
def Value.recover : Value := .text "<recover>"

/-- fn text_value from src/parser/quantity.rs: rebuild the run as text,
report an empty value error when the trimmed content is blank, and yield
the trimmed text as the value either way. -/
def text_value (tokens : List Token) (offset : Nat) (s : BlockParser) :
    Value × BlockParser :=
  let t := s.text offset tokens
  let s1 :=
    if t.isTextEmpty then
      s.error (.componentPartInvalid "quantity" "value" "is empty"
        [(t.span, some "empty value here")] none)
    else s
  (.text (String.mk t.textTrimmed), s1)

/-- fn parse_value from src/parser/quantity.rs: numeric forms first, then
the text fallback; a numeric parse error is recorded and replaced by the
recovery placeholder. -/
def parse_value (tokens : List Token) (s : BlockParser) :
    Located Value × BlockParser :=
  let start := ((tokens.head?).map (fun t => t.span.start)).getD s.current_offset
  let stop := s.current_offset
  let span : Span := ⟨start, stop⟩
  match numeric_value tokens s with
  | some (.ok v) => (⟨v, span⟩, s)
  | some (.error e) => (⟨Value.recover, span⟩, s.error e)
  | none =>
      let r := text_value tokens start s
      (⟨r.1, span⟩, r.2)

/-- ast::QuantityValue (src/ast.rs interface): a single value with an
optional auto-scale marker span, or a list of several values. -/
inductive AstQuantityValue where
  | single (value : Located Value) (auto_scale : Option Span)
  | many (values : List (Located Value))
deriving DecidableEq, Repr

/-- ast::Quantity (src/ast.rs interface): value plus optional unit text. -/
structure AstQuantity where
  value : AstQuantityValue
  unit : Option Text
deriving DecidableEq, Repr

/-- ParsedQuantity from src/parser/quantity.rs. -/
structure ParsedQuantity where
  quantity : Located AstQuantity
  unit_separator : Option Span
deriving DecidableEq, Repr

/-- The consume_while predicate of the value list loop: everything up to
the next value separator, auto-scale marker or unit separator. -/
def notValueTerminator (k : TokenKind) : Bool :=
  match k with
  | .bar | .star | .percent => false
  | _ => true

/-- The loop body of fn many_values from src/parser/quantity.rs, written
with structural fuel; mvLoopF_congr below shows any fuel above the number
of remaining tokens gives the same result, so the fuel zero branch is
unreachable from many_values. -/
def mvLoopF : Nat → BlockParser → List (Located Value) →
    List (Located Value) × Option Span × BlockParser
  | 0, s, values => (values, none, s)
  | fuel + 1, s, values =>
      let p1 := s.consume_while notValueTerminator
      let p2 := parse_value p1.1 p1.2
      let values2 := values ++ [p2.1]
      let s2 := p2.2
      match s2.peek with
      | .bar => mvLoopF fuel (s2.bump_any).2 values2
      | .star =>
          let pb := s2.bump_any
          if values2.length = 1 then (values2, some pb.1.span, pb.2)
          else (values2, none, pb.2.error (.quantityScalingConflict
            ⟨((values2.head?.map (fun v => v.span.stop)).getD 0), pb.1.span.stop⟩))
      | _ => (values2, none, s2)

/-- fn many_values from src/parser/quantity.rs: the value list loop, then
a Single for one value (carrying the auto-scale span) or a Many for
several; Many combined with auto-scale reports an incompatibility error
and drops the marker. The empty case is unreachable, the loop always
appending at least one value. -/
def many_values (s : BlockParser) : AstQuantityValue × BlockParser :=
  let r := mvLoopF (s.tokens.length + 1 - s.current) s []
  match r with
  | ([v], auto_scale, s1) => (.single v auto_scale, s1)
  | ([], _, s1) => (.single ⟨Value.recover, ⟨0, 0⟩⟩ none, s1)
  | (vs, some sp, s1) =>
      (.many vs, s1.error (.componentPartInvalid "quantity" "value"
        "auto scale is not compatible with multiple values"
        [(sp, some "remove this")] none))
  | (vs, none, s1) => (.many vs, s1)

/-- The all-whitespace-or-block-comment test applied to the would-be unit
tokens in parse_regular_quantity. -/
def isWsOrBlockComment (t : Token) : Bool :=
  match t.kind with
  | .ws | .blockComment => true
  | _ => false

/-- fn parse_regular_quantity from src/parser/quantity.rs: a value list,
then either a percent separated unit (an empty unit error when the
remainder is all whitespace or block comments), plain end of run, or the
whole-run-as-text fallback. -/
def parse_regular_quantity (s : BlockParser) : ParsedQuantity × BlockParser :=
  let r := many_values s
  let value0 := r.1
  let s1 := r.2
  match s1.peek with
  | .percent =>
      let pb := s1.bump_any
      let sep := pb.1
      let pc := pb.2.consume_rest
      let unit := pc.1
      let s3 := pc.2
      if unit.all isWsOrBlockComment then
        let sp := if unit.isEmpty then Span.pos sep.span.stop
          else ⟨sep.span.start, ((unit.getLast?.map (fun t => t.span.stop)).getD sep.span.stop)⟩
        let s4 := s3.error (.componentPartInvalid "quantity" "unit" "is empty"
          [(sep.span, some "remove this"), (sp, some "or add unit here")] none)
        ({ quantity := ⟨⟨value0, none⟩, tokensSpan s3.tokens⟩,
           unit_separator := some sep.span }, s4)
      else
        ({ quantity := ⟨⟨value0, some (s3.text sep.span.stop unit)⟩, tokensSpan s3.tokens⟩,
           unit_separator := some sep.span }, s3)
  | .eof =>
      ({ quantity := ⟨⟨value0, none⟩, tokensSpan s1.tokens⟩, unit_separator := none }, s1)
  | _ =>
      let pc := s1.consume_rest
      let s2 := pc.2
      let txt := s2.text (((s2.tokens.head?).map (fun t => t.span.start)).getD 0) s2.tokens
      let value := AstQuantityValue.single ⟨.text (String.mk txt.textTrimmed), txt.span⟩ none
      ({ quantity := ⟨⟨value, none⟩, tokensSpan s2.tokens⟩, unit_separator := none }, s2)

/-- A token kind that text reconstruction copies verbatim: neither a
newline, nor a comment, nor an escape. -/
def plainKind (k : TokenKind) : Bool :=
  match k with
  | .newline | .lineComment | .blockComment | .escaped => false
  | _ => true

/-- The adjacency invariant on token runs checked by the source debug
assertions: each token ends where the next one starts. -/
def tokensAdjacent : List Token → Bool
  | [] => true
  | [_] => true
  | a :: b :: rest => a.span.stop = b.span.start && tokensAdjacent (b :: rest)

/-- Whitespace or any comment kind, the reading of the spec sentence about
the would-be unit remainder. -/
def isWsOrComment (t : Token) : Bool :=
  match t.kind with
  | .ws | .lineComment | .blockComment => true
  | _ => false

/-- Whether a numeric_value result is a division by zero error. -/
def isDivisionByZeroResult (r : Option (Except ParserError Value)) : Bool :=
  match r with
  | some (.error (.divisionByZero _)) => true
  | _ => false

/-! ## Scaling engine data (src/scale.rs) -/

/-- ScaleTarget from src/scale.rs: base servings, target servings and an
optional index into the declared servings list. -/
structure ScaleTarget where
  base : Nat
  target : Nat
  index : Option Nat
deriving DecidableEq, Repr

/-- ScaleTarget::new: the index is the position of target in the declared
servings list, when present. -/
def ScaleTarget.new (base target : Nat) (declaredServings : List Nat) : ScaleTarget :=
  ⟨base, target, declaredServings.findIdx? (fun s => s = target)⟩

/-- ScaleTarget::factor, target / base. The source computes this over f64;
the rational model is exact and no claim below depends on rounding. -/
def ScaleTarget.factor (t : ScaleTarget) : ℚ :=
  (t.target : ℚ) / (t.base : ℚ)

/-- ScalableValue from src/quantity.rs (not under src/). Modelled from the
spec: a scalable value is either linear (scaled by the factor) or
by-servings (one concrete value per declared serving count). -/
inductive ScalableValue where
  | linear (v : Value)
  | byServings (v : List Value)
deriving DecidableEq, Repr

/-- QuantityValue from src/quantity.rs (not under src/). Modelled from the
spec: a quantity value is either already fixed or still scalable. -/
inductive QuantityValue where
  | fixed (v : Value)
  | scalable (v : ScalableValue)
deriving DecidableEq, Repr

/-- ScaleError from src/scale.rs. TextValueError wraps the offending value;
NotScalable carries the value and a static reason; NotDefined carries the
target and the value. -/
inductive ScaleError where
  | textValueError (v : Value)
  | notScalable (value : ScalableValue) (reason : String)
  | notDefined (target : ScaleTarget) (value : ScalableValue)
deriving DecidableEq, Repr

/-- ScaleOutcome from src/scale.rs. -/
inductive ScaleOutcome where
  | scaled
  | fixed
  | noQuantity
  | error (e : ScaleError)
deriving DecidableEq, Repr

/-- Value::scale from src/scale.rs: numbers and both range endpoints are
multiplied by the factor; free text is a TextValueError. -/
def Value.scale (v : Value) (factor : ℚ) : Except ScaleError Value :=
  match v with
  | .number n => .ok (.number (n * factor))
  | .range a b => .ok (.range (a * factor) (b * factor))
  | .text s => .error (.textValueError (.text s))

/-- ScalableValue::scale from src/scale.rs. Linear values are multiplied by
the factor; by-servings values require target.index and select the element
at that index, erring with NotDefined when the index is out of range and
with NotScalable when there is no index. into_owned is the identity in this
model, lifetimes having no counterpart. -/
def ScalableValue.scale (v : ScalableValue) (target : ScaleTarget) :
    Except ScaleError (Value × ScaleOutcome) :=
  match v with
  | .linear x =>
      match x.scale target.factor with
      | .ok y => .ok (y, .scaled)
      | .error e => .error e
  | .byServings xs =>
      match target.index with
      | some index =>
          match xs.get? index with
          | some value => .ok (value, .scaled)
          | none => .error (.notDefined target (.byServings xs))
      | none =>
          .error (.notScalable (.byServings xs)
            "tried to scale a value linearly when it has the scaling defined")

/-- QuantityValue::scale from src/scale.rs: a fixed value is returned
unchanged with outcome Fixed; a scalable value is scaled and the result is
wrapped as fixed. -/
def QuantityValue.scale (v : QuantityValue) (target : ScaleTarget) :
    Except ScaleError (QuantityValue × ScaleOutcome) :=
  match v with
  | .fixed x => .ok (.fixed x, .fixed)
  | .scalable x =>
      match x.scale target with
      | .ok (y, o) => .ok (.fixed y, o)
      | .error e => .error e

/-- Quantity from src/quantity.rs (not under src/). Modelled from the spec:
a value plus an optional unit text. -/
structure Quantity where
  value : QuantityValue
  unit : Option String
deriving DecidableEq, Repr

/-- Ingredient component (src/model.rs is not under src/). Modelled from the
spec: an ingredient has an optional quantity; fields the scaling engine
never touches are omitted. -/
structure Ingredient where
  quantity : Option Quantity
deriving DecidableEq, Repr

/-- Cookware component (src/model.rs is not under src/). Modelled from the
spec and the extraction closure in scale_many: an optional bare quantity
value, no unit. -/
structure Cookware where
  quantity : Option QuantityValue
deriving DecidableEq, Repr

/-- Timer component (src/model.rs is not under src/). Modelled from the
spec and the extraction closure in scale_many: a mandatory quantity. -/
structure Timer where
  quantity : Quantity
deriving DecidableEq, Repr

/-- ScaledData from src/scale.rs: target plus one outcome list per kind. -/
structure ScaledData where
  target : ScaleTarget
  ingredients : List ScaleOutcome
  cookware : List ScaleOutcome
  timers : List ScaleOutcome
deriving DecidableEq, Repr

/-- Scaled from src/scale.rs, a tagged scaled-or-not state. The first
constructor keeps the source spelling. -/
inductive Scaled where
  | skippedSacaling
  | scaled (data : ScaledData)
deriving DecidableEq, Repr

/-- Recipe (src/model.rs is not under src/). Modelled from the spec: name,
metadata and section structure are moved wholesale by the scaling engine,
so they are type parameters here; the three component lists are concrete. -/
structure Recipe (M S : Type) where
  name : String
  metadata : M
  sections : S
  ingredients : List Ingredient
  cookware : List Cookware
  timers : List Timer
deriving DecidableEq, Repr

/-- ScaledRecipe: a recipe in the scaled-or-not state, the data field of
Recipe specialised to Scaled in the source. -/
structure ScaledRecipe (M S : Type) where
  name : String
  metadata : M
  sections : S
  ingredients : List Ingredient
  cookware : List Cookware
  timers : List Timer
  data : Scaled
deriving DecidableEq, Repr

/-- scale_many from src/scale.rs. The Rust closure hands back a mutable
reference into the component; the pure translation is a lens: extract reads
the quantity value, update writes it back. On a successful scale the value
is overwritten and the outcome recorded; on an error only the outcome
Error(e) is recorded; a component without a quantity gets NoQuantity. -/
def scale_many {T : Type} (target : ScaleTarget) (components : List T)
    (extract : T → Option QuantityValue) (update : T → QuantityValue → T) :
    List T × List ScaleOutcome :=
  match components with
  | [] => ([], [])
  | c :: cs =>
      let step : T × ScaleOutcome :=
        match extract c with
        | some value =>
            match value.scale target with
            | .ok (v, o) => (update c v, o)
            | .error e => (c, .error e)
        | none => (c, .noQuantity)
      let rest := scale_many target cs extract update
      (step.1 :: rest.1, step.2 :: rest.2)

/-- Ingredient extraction closure of Recipe::scale. -/
def Ingredient.extractQV (i : Ingredient) : Option QuantityValue :=
  i.quantity.map (fun q => q.value)

/-- Ingredient update through the lens of Recipe::scale. -/
def Ingredient.updateQV (i : Ingredient) (v : QuantityValue) : Ingredient :=
  ⟨i.quantity.map (fun q => ⟨v, q.unit⟩)⟩

/-- Timer update through the lens of Recipe::scale. -/
def Timer.updateQV (t : Timer) (v : QuantityValue) : Timer :=
  ⟨⟨v, t.quantity.unit⟩⟩

/-- Recipe::scale from src/scale.rs: each component kind is scaled with
scale_many and the outcomes are stored next to the target in the Scaled
state; all other fields are moved unchanged. -/
def Recipe.scale {M S : Type} (r : Recipe M S) (target : ScaleTarget) :
    ScaledRecipe M S :=
  let ing := scale_many target r.ingredients Ingredient.extractQV Ingredient.updateQV
  let cw := scale_many target r.cookware (fun c => c.quantity)
    (fun _ v => ⟨some v⟩)
  let tm := scale_many target r.timers (fun t => some t.quantity.value) Timer.updateQV
  { name := r.name
    metadata := r.metadata
    sections := r.sections
    ingredients := ing.1
    cookware := cw.1
    timers := tm.1
    data := .scaled ⟨target, ing.2, cw.2, tm.2⟩ }

/-- Recipe::skip_scaling from src/scale.rs: the same components wrapped in
the skipped state. -/
def Recipe.skip_scaling {M S : Type} (r : Recipe M S) : ScaledRecipe M S :=
  { name := r.name
    metadata := r.metadata
    sections := r.sections
    ingredients := r.ingredients
    cookware := r.cookware
    timers := r.timers
    data := .skippedSacaling }

/-- ScaledRecipe::scaled_data from src/scale.rs. -/
def ScaledRecipe.scaled_data {M S : Type} (r : ScaledRecipe M S) : Option ScaledData :=
  match r.data with
  | .scaled data => some data
  | .skippedSacaling => none

/-- Forget the scaled-or-not state, recovering the plain recipe carried by
the wrapper. -/
def ScaledRecipe.toRecipe {M S : Type} (r : ScaledRecipe M S) : Recipe M S :=
  ⟨r.name, r.metadata, r.sections, r.ingredients, r.cookware, r.timers⟩

/-- The outcome scale_many records for one component whose extracted
quantity value is q. -/
def outcomeOf (target : ScaleTarget) (q : Option QuantityValue) : ScaleOutcome :=
  match q with
  | none => .noQuantity
  | some v =>
      match v.scale target with
      | .ok (_, o) => o
      | .error e => .error e

/-! ## Cursor state lemmas -/

theorem consume_while_tokens (s : BlockParser) (f : TokenKind → Bool) :
    (s.consume_while f).2.tokens = s.tokens := rfl

theorem consume_while_current_ge (s : BlockParser) (f : TokenKind → Bool) :
    s.current ≤ (s.consume_while f).2.current :=
  Nat.le_add_right _ _

theorem error_tokens (s : BlockParser) (e : ParserError) :
    (s.error e).tokens = s.tokens := rfl

theorem error_current (s : BlockParser) (e : ParserError) :
    (s.error e).current = s.current := rfl

theorem text_value_tokens (tokens : List Token) (offset : Nat) (s : BlockParser) :
    (text_value tokens offset s).2.tokens = s.tokens := by
  unfold text_value
  dsimp only
  split <;> rfl

theorem text_value_current (tokens : List Token) (offset : Nat) (s : BlockParser) :
    (text_value tokens offset s).2.current = s.current := by
  unfold text_value
  dsimp only
  split <;> rfl

theorem parse_value_tokens (tokens : List Token) (s : BlockParser) :
    (parse_value tokens s).2.tokens = s.tokens := by
  unfold parse_value
  cases numeric_value tokens s with
  | none => exact text_value_tokens _ _ _
  | some r => cases r with
    | ok v => rfl
    | error e => rfl

theorem parse_value_current (tokens : List Token) (s : BlockParser) :
    (parse_value tokens s).2.current = s.current := by
  unfold parse_value
  cases numeric_value tokens s with
  | none => exact text_value_current _ _ _
  | some r => cases r with
    | ok v => rfl
    | error e => rfl

theorem peek_lt_of_ne_eof (s : BlockParser) (h : s.peek ≠ .eof) :
    s.current < s.tokens.length := by
  by_contra hge
  have hn : s.tokens.get? s.current = none := List.get?_eq_none.mpr (by omega)
  unfold BlockParser.peek at h
  rw [hn] at h
  simp at h

theorem bump_any_tokens (s : BlockParser) : (s.bump_any).2.tokens = s.tokens := by
  unfold BlockParser.bump_any
  cases s.tokens.get? s.current <;> rfl

theorem bump_any_current (s : BlockParser) (h : s.current < s.tokens.length) :
    (s.bump_any).2.current = s.current + 1 := by
  unfold BlockParser.bump_any
  cases hg : s.tokens.get? s.current with
  | none => exact absurd (List.get?_eq_none.mp hg) (by omega)
  | some t => rfl

/-- Any fuel strictly above the number of remaining tokens computes the
same value list loop result: the loop terminates and the fuel zero default
is never taken from many_values. -/
theorem mvLoopF_congr (fuel1 : Nat) : ∀ (fuel2 : Nat) (s : BlockParser)
    (values : List (Located Value)),
    s.tokens.length - s.current < fuel1 →
    s.tokens.length - s.current < fuel2 →
    mvLoopF fuel1 s values = mvLoopF fuel2 s values := by
  induction fuel1 with
  | zero => intro fuel2 s values h1 h2; omega
  | succ k ih =>
      intro fuel2 s values h1 h2
      cases fuel2 with
      | zero => omega
      | succ m =>
          simp only [mvLoopF]
          cases hpk : (parse_value (s.consume_while notValueTerminator).1
              (s.consume_while notValueTerminator).2).2.peek with
          | bar =>
              apply ih
              all_goals
                have e1 := consume_while_tokens s notValueTerminator
                have e2 := consume_while_current_ge s notValueTerminator
                have e3 := parse_value_tokens (s.consume_while notValueTerminator).1
                  (s.consume_while notValueTerminator).2
                have e4 := parse_value_current (s.consume_while notValueTerminator).1
                  (s.consume_while notValueTerminator).2
                have e5 := peek_lt_of_ne_eof _ (by rw [hpk]; intro hx; exact TokenKind.noConfusion hx)
                have e6 := bump_any_tokens (parse_value (s.consume_while notValueTerminator).1
                  (s.consume_while notValueTerminator).2).2
                have e7 := bump_any_current (parse_value (s.consume_while notValueTerminator).1
                  (s.consume_while notValueTerminator).2).2 (by omega)
                rw [e6, e7, e3, e1] at *
                rw [e3, e1] at e5
                omega
          | star => rfl
          | _ => rfl

/-! ## Text reconstruction lemmas -/

theorem textFold_plain (input : List Char) (tokens : List Token) :
    ∀ (t : Text) (a b : Nat), (∀ tok ∈ tokens, plainKind tok.kind = true) →
    tokens.foldl (textStep input) (t, a, b) =
      (t, a, ((tokens.getLast?.map (fun tok => tok.span.stop)).getD b)) := by
  induction tokens with
  | nil => intro t a b _; simp
  | cons tok rest ih =>
      intro t a b h
      have hplain : plainKind tok.kind = true := h tok (by simp)
      have hrest : ∀ x ∈ rest, plainKind x.kind = true := fun x hx => h x (by simp [hx])
      have hstep : textStep input (t, a, b) tok = (t, a, tok.span.stop) := by
        unfold plainKind at hplain
        unfold textStep
        cases htk : tok.kind <;> simp [htk] at hplain ⊢
      rw [List.foldl_cons, hstep, ih t a tok.span.stop hrest]
      cases rest with
      | nil => simp
      | cons y ys =>
          simp only [List.getLast?_cons_cons]
          cases hz : (y :: ys).getLast? with
          | none => simp at hz
          | some z => rfl

theorem appendStr_empty_content (offset : Nat) (cs : List Char) (o2 : Nat) :
    ((Text.empty offset).appendStr cs o2).content = cs := by
  cases cs <;> simp [Text.empty, Text.appendStr, Text.appendFragment, Text.content]

/-- Claim C6: over a contiguous token run without escape, comment or
newline tokens, text reconstruction yields exactly the input substring the
run spans. -/
theorem text_reconstruction_roundtrip (s : BlockParser) (tok0 : Token) (rest : List Token)
    (_hadj : tokensAdjacent (tok0 :: rest) = true)
    (hplain : ∀ tok ∈ tok0 :: rest, plainKind tok.kind = true) :
    (s.text tok0.span.start (tok0 :: rest)).content =
      extractRange s.input tok0.span.start
        (((tok0 :: rest).getLast (by simp)).span.stop) := by
  simp only [BlockParser.text]
  rw [textFold_plain s.input (tok0 :: rest) (Text.empty tok0.span.start)
    tok0.span.start tok0.span.start hplain]
  dsimp only
  rw [appendStr_empty_content]
  rw [List.getLast?_eq_getLast_of_ne_nil (by simp)]
  rfl

/-- Witness for C6 over two adjacent word tokens spanning the input. -/
theorem text_reconstruction_roundtrip_witness :
    tokensAdjacent [(⟨.word, ⟨0, 2⟩⟩ : Token), ⟨.word, ⟨2, 3⟩⟩] = true ∧
    ((BlockParser.new 0 [] ("abc".toList) ⟨true, true, true⟩).text 0
      [⟨.word, ⟨0, 2⟩⟩, ⟨.word, ⟨2, 3⟩⟩]).content = "abc".toList :=
  ⟨by decide,
    text_reconstruction_roundtrip (BlockParser.new 0 [] ("abc".toList) ⟨true, true, true⟩)
      ⟨.word, ⟨0, 2⟩⟩ [⟨.word, ⟨2, 3⟩⟩] (by decide) (by decide)⟩

/-! ## Claim theorems for the parser -/

/-- Claim C5: a speculative sub-parse under with_recover keeps every event
the closure emitted even when the attempt fails, restores the cursor
exactly on failure, and leaves the cursor where the closure left it on
success. -/
theorem speculative_recover_contract {α : Type} (f : BlockParser → Option α × BlockParser)
    (s : BlockParser) (emitted : List Event)
    (h : (f s).2.events = s.events ++ emitted) :
    ((s.with_recover f).2.events = s.events ++ emitted) ∧
    ((f s).1 = none → (s.with_recover f).2.current = s.current) ∧
    (∀ a, (f s).1 = some a → s.with_recover f = (some a, (f s).2)) := by
  simp only [BlockParser.with_recover]
  cases hr : (f s).1 with
  | none => exact ⟨h, fun _ => rfl, fun a ha => Option.noConfusion ha⟩
  | some v =>
      refine ⟨h, fun hn => Option.noConfusion hn, fun a ha => ?_⟩
      injection ha with hv
      rw [hv]

/-- Witness for C5: a failing closure that emits one error; the event
survives while the cursor is rolled back. -/
theorem speculative_recover_contract_witness :
    ((BlockParser.new 0 [⟨.word, ⟨0, 1⟩⟩] ("a".toList) ⟨true, true, true⟩).with_recover
      (fun st => ((none : Option Unit), st.error (.divisionByZero ⟨0, 0⟩)))).2.events =
      [.error (.divisionByZero ⟨0, 0⟩)] ∧
    ((BlockParser.new 0 [⟨.word, ⟨0, 1⟩⟩] ("a".toList) ⟨true, true, true⟩).with_recover
      (fun st => ((none : Option Unit), st.error (.divisionByZero ⟨0, 0⟩)))).2.current = 0 :=
  ⟨(speculative_recover_contract
      (fun st => ((none : Option Unit), st.error (.divisionByZero ⟨0, 0⟩)))
      (BlockParser.new 0 [⟨.word, ⟨0, 1⟩⟩] ("a".toList) ⟨true, true, true⟩)
      [.error (.divisionByZero ⟨0, 0⟩)] rfl).1,
   (speculative_recover_contract
      (fun st => ((none : Option Unit), st.error (.divisionByZero ⟨0, 0⟩)))
      (BlockParser.new 0 [⟨.word, ⟨0, 1⟩⟩] ("a".toList) ⟨true, true, true⟩)
      [.error (.divisionByZero ⟨0, 0⟩)] rfl).2.1 rfl⟩

/-- Claim C3: the token run 100|200* (two values before the star) makes
the value list loop report a quantity scaling conflict and yield a Many
list, while 100* (one value) yields a Single 100 whose auto-scale span is
the star token span, with no error at all. -/
theorem quantity_autoscale_exclusivity :
    (many_values (BlockParser.new 0
      [⟨.int, ⟨0, 3⟩⟩, ⟨.bar, ⟨3, 4⟩⟩, ⟨.int, ⟨4, 7⟩⟩, ⟨.star, ⟨7, 8⟩⟩]
      ("100|200*".toList) ⟨true, true, true⟩)).2.events =
      [.error (.quantityScalingConflict ⟨3, 8⟩)] ∧
    (many_values (BlockParser.new 0
      [⟨.int, ⟨0, 3⟩⟩, ⟨.bar, ⟨3, 4⟩⟩, ⟨.int, ⟨4, 7⟩⟩, ⟨.star, ⟨7, 8⟩⟩]
      ("100|200*".toList) ⟨true, true, true⟩)).1 =
      .many [⟨.number 100, ⟨0, 3⟩⟩, ⟨.number 200, ⟨4, 7⟩⟩] ∧
    (many_values (BlockParser.new 0 [⟨.int, ⟨0, 3⟩⟩, ⟨.star, ⟨3, 4⟩⟩]
      ("100*".toList) ⟨true, true, true⟩)).2.events = [] ∧
    (many_values (BlockParser.new 0 [⟨.int, ⟨0, 3⟩⟩, ⟨.star, ⟨3, 4⟩⟩]
      ("100*".toList) ⟨true, true, true⟩)).1 =
      .single ⟨.number 100, ⟨0, 3⟩⟩ (some ⟨3, 4⟩) := by
  refine ⟨by decide, by decide, by decide, by decide⟩

/-- Counterexample to C4 as stated: when the numerator literal overflows
u32, the run a/0 reports an integer parse error, not a division by zero
error. -/
theorem fraction_zero_guard_overflow_cex :
    numeric_value [⟨.int, ⟨0, 10⟩⟩, ⟨.slash, ⟨10, 11⟩⟩, ⟨.int, ⟨11, 12⟩⟩]
      (BlockParser.new 0 [⟨.int, ⟨0, 10⟩⟩, ⟨.slash, ⟨10, 11⟩⟩, ⟨.int, ⟨11, 12⟩⟩]
        ("4294967296/0".toList) ⟨true, true, true⟩) =
      some (.error (.parseInt ⟨0, 10⟩)) ∧
    isDivisionByZeroResult (numeric_value [⟨.int, ⟨0, 10⟩⟩, ⟨.slash, ⟨10, 11⟩⟩, ⟨.int, ⟨11, 12⟩⟩]
      (BlockParser.new 0 [⟨.int, ⟨0, 10⟩⟩, ⟨.slash, ⟨10, 11⟩⟩, ⟨.int, ⟨11, 12⟩⟩]
        ("4294967296/0".toList) ⟨true, true, true⟩)) = false := by
  refine ⟨by decide, by decide⟩

/-- Claim C4, amended: for every integer literal a that parses as u32,
a value run of the form a/0 or x a/0 reports a division by zero error
spanning the fraction and never a numeric value. -/
theorem fraction_zero_guard (s : BlockParser) (tokens1 tokens2 : List Token)
    (ta tsl tb tx : Token) (n m : Nat)
    (hf1 : tokens1.filter notWsComment = [ta, tsl, tb])
    (hf2 : tokens2.filter notWsComment = [tx, ta, tsl, tb])
    (hka : ta.kind = .int) (hks : tsl.kind = .slash) (hkb : tb.kind = .int)
    (hkx : tx.kind = .int)
    (hpa : parseU32 (s.as_str ta) = some n)
    (hpx : parseU32 (s.as_str tx) = some m)
    (hzb : s.as_str tb = ['0']) :
    numeric_value tokens1 s =
      some (.error (.divisionByZero ⟨ta.span.start, tb.span.stop⟩)) ∧
    numeric_value tokens2 s =
      some (.error (.divisionByZero ⟨ta.span.start, tb.span.stop⟩)) := by
  have hia : int ta s = .ok (n : ℚ) := by unfold int; rw [hpa]
  have hib : int tb s = .ok ((0 : ℚ)) := by
    unfold int
    rw [hzb, show parseU32 ['0'] = some 0 from by decide]
    simp
  have hit : int tx s = .ok (m : ℚ) := by unfold int; rw [hpx]
  have hfr : frac ta tb s = .error (.divisionByZero ⟨ta.span.start, tb.span.stop⟩) := by
    unfold frac
    rw [hia, hib]
    simp
  constructor
  · simp only [numeric_value]
    rw [hf1]
    simp only [hka, hks, hkb]
    rw [hfr]
    simp [Except.map]
  · simp only [numeric_value]
    rw [hf2]
    simp only [hka, hks, hkb, hkx]
    unfold mixed_num
    rw [hit, hfr]
    simp [Except.map]

/-- Witness for the amended C4 on the runs 1/0 and 5 1/0. -/
theorem fraction_zero_guard_witness :
    numeric_value [⟨.int, ⟨2, 3⟩⟩, ⟨.slash, ⟨3, 4⟩⟩, ⟨.int, ⟨4, 5⟩⟩]
      (BlockParser.new 0
        [⟨.int, ⟨0, 1⟩⟩, ⟨.ws, ⟨1, 2⟩⟩, ⟨.int, ⟨2, 3⟩⟩, ⟨.slash, ⟨3, 4⟩⟩, ⟨.int, ⟨4, 5⟩⟩]
        ("5 1/0".toList) ⟨true, true, true⟩) =
      some (.error (.divisionByZero ⟨2, 5⟩)) ∧
    numeric_value [⟨.int, ⟨0, 1⟩⟩, ⟨.ws, ⟨1, 2⟩⟩, ⟨.int, ⟨2, 3⟩⟩, ⟨.slash, ⟨3, 4⟩⟩, ⟨.int, ⟨4, 5⟩⟩]
      (BlockParser.new 0
        [⟨.int, ⟨0, 1⟩⟩, ⟨.ws, ⟨1, 2⟩⟩, ⟨.int, ⟨2, 3⟩⟩, ⟨.slash, ⟨3, 4⟩⟩, ⟨.int, ⟨4, 5⟩⟩]
        ("5 1/0".toList) ⟨true, true, true⟩) =
      some (.error (.divisionByZero ⟨2, 5⟩)) :=
  fraction_zero_guard
    (BlockParser.new 0
      [⟨.int, ⟨0, 1⟩⟩, ⟨.ws, ⟨1, 2⟩⟩, ⟨.int, ⟨2, 3⟩⟩, ⟨.slash, ⟨3, 4⟩⟩, ⟨.int, ⟨4, 5⟩⟩]
      ("5 1/0".toList) ⟨true, true, true⟩)
    [⟨.int, ⟨2, 3⟩⟩, ⟨.slash, ⟨3, 4⟩⟩, ⟨.int, ⟨4, 5⟩⟩]
    [⟨.int, ⟨0, 1⟩⟩, ⟨.ws, ⟨1, 2⟩⟩, ⟨.int, ⟨2, 3⟩⟩, ⟨.slash, ⟨3, 4⟩⟩, ⟨.int, ⟨4, 5⟩⟩]
    ⟨.int, ⟨2, 3⟩⟩ ⟨.slash, ⟨3, 4⟩⟩ ⟨.int, ⟨4, 5⟩⟩ ⟨.int, ⟨0, 1⟩⟩ 1 5
    (by decide) (by decide) rfl rfl rfl rfl (by decide) (by decide) (by decide)

/-- Counterexample to C7 as stated: a line comment token after the
percent separator is a comment, yet no empty unit error is emitted and a
unit is produced. -/
theorem empty_unit_line_comment_cex :
    ([(⟨.lineComment, ⟨4, 7⟩⟩ : Token)].all isWsOrComment = true) ∧
    (parse_regular_quantity (BlockParser.new 0
      [⟨.int, ⟨0, 3⟩⟩, ⟨.percent, ⟨3, 4⟩⟩, ⟨.lineComment, ⟨4, 7⟩⟩]
      ("100%--c".toList) ⟨true, true, true⟩)).1.quantity.value.unit ≠ none ∧
    (parse_regular_quantity (BlockParser.new 0
      [⟨.int, ⟨0, 3⟩⟩, ⟨.percent, ⟨3, 4⟩⟩, ⟨.lineComment, ⟨4, 7⟩⟩]
      ("100%--c".toList) ⟨true, true, true⟩)).2.events = [] := by
  refine ⟨by decide, by decide, by decide⟩

/-- Claim C7, amended: in the regular grammar, when a percent separator
follows the value list and every remaining token is whitespace or a block
comment (line comments excluded; no token at all included), an empty unit
error with the separator label and the would-be unit label is emitted and
the quantity has no unit; otherwise the tokens after the percent become
the unit text. -/
theorem empty_unit_spec (s : BlockParser) (v0 : AstQuantityValue) (s1 : BlockParser)
    (hmv : many_values s = (v0, s1)) (hpk : s1.peek = .percent)
    (sep : Token) (s2 : BlockParser) (hb : s1.bump_any = (sep, s2))
    (unit : List Token) (s3 : BlockParser) (hcr : s2.consume_rest = (unit, s3)) :
    (unit.all isWsOrBlockComment = true →
      (parse_regular_quantity s).1.quantity.value.unit = none ∧
      (parse_regular_quantity s).1.unit_separator = some sep.span ∧
      (parse_regular_quantity s).2.events = s3.events ++
        [.error (.componentPartInvalid "quantity" "unit" "is empty"
          [(sep.span, some "remove this"),
           ((if unit.isEmpty then Span.pos sep.span.stop
             else ⟨sep.span.start, ((unit.getLast?.map (fun t => t.span.stop)).getD sep.span.stop)⟩),
            some "or add unit here")] none)]) ∧
    (unit.all isWsOrBlockComment = false →
      (parse_regular_quantity s).1.quantity.value.unit = some (s3.text sep.span.stop unit) ∧
      (parse_regular_quantity s).1.unit_separator = some sep.span ∧
      (parse_regular_quantity s).2.events = s3.events) := by
  simp only [parse_regular_quantity, hmv, hpk, hb, hcr]
  constructor
  · intro hall
    simp [hall, BlockParser.error]
  · intro hall
    simp [hall]

/-- Witness for the amended C7: the run 100 percent with nothing after the
separator gets the empty unit error and no unit. -/
theorem empty_unit_spec_witness :
    (parse_regular_quantity (BlockParser.new 0 [⟨.int, ⟨0, 3⟩⟩, ⟨.percent, ⟨3, 4⟩⟩]
      ("100%".toList) ⟨true, true, true⟩)).1.quantity.value.unit = none ∧
    (parse_regular_quantity (BlockParser.new 0 [⟨.int, ⟨0, 3⟩⟩, ⟨.percent, ⟨3, 4⟩⟩]
      ("100%".toList) ⟨true, true, true⟩)).1.unit_separator = some ⟨3, 4⟩ ∧
    (parse_regular_quantity (BlockParser.new 0 [⟨.int, ⟨0, 3⟩⟩, ⟨.percent, ⟨3, 4⟩⟩]
      ("100%".toList) ⟨true, true, true⟩)).2.events =
      [.error (.componentPartInvalid "quantity" "unit" "is empty"
        [(⟨3, 4⟩, some "remove this"), (Span.pos 4, some "or add unit here")] none)] := by
  have H := (empty_unit_spec
    (BlockParser.new 0 [⟨.int, ⟨0, 3⟩⟩, ⟨.percent, ⟨3, 4⟩⟩] ("100%".toList) ⟨true, true, true⟩)
    (.single ⟨.number 100, ⟨0, 3⟩⟩ none)
    { base_offset := 0, tokens := [⟨.int, ⟨0, 3⟩⟩, ⟨.percent, ⟨3, 4⟩⟩], current := 1,
      input := "100%".toList, extensions := ⟨true, true, true⟩, events := [] }
    (by decide) (by decide)
    ⟨.percent, ⟨3, 4⟩⟩
    { base_offset := 0, tokens := [⟨.int, ⟨0, 3⟩⟩, ⟨.percent, ⟨3, 4⟩⟩], current := 2,
      input := "100%".toList, extensions := ⟨true, true, true⟩, events := [] }
    (by decide) []
    { base_offset := 0, tokens := [⟨.int, ⟨0, 3⟩⟩, ⟨.percent, ⟨3, 4⟩⟩], current := 2,
      input := "100%".toList, extensions := ⟨true, true, true⟩, events := [] }
    (by decide)).1 rfl
  exact ⟨H.1, H.2.1, H.2.2⟩

/-! ## Lemmas about scale_many -/

theorem scale_many_snd_eq_map {T : Type} (target : ScaleTarget) (components : List T)
    (extract : T → Option QuantityValue) (update : T → QuantityValue → T) :
    (scale_many target components extract update).2 =
      components.map (fun c => outcomeOf target (extract c)) := by
  induction components with
  | nil => rfl
  | cons c cs ih =>
      simp only [scale_many, List.map_cons, ih, outcomeOf]
      cases h : extract c with
      | none => simp [h]
      | some v =>
          cases hs : v.scale target with
          | ok p => cases p; simp [h, hs]
          | error e => simp [h, hs]

theorem scale_many_fst_length {T : Type} (target : ScaleTarget) (components : List T)
    (extract : T → Option QuantityValue) (update : T → QuantityValue → T) :
    (scale_many target components extract update).1.length = components.length := by
  induction components with
  | nil => rfl
  | cons c cs ih => simp only [scale_many, List.length_cons, ih]

theorem scalableValue_scale_ok_outcome (x : ScalableValue) (target : ScaleTarget)
    {y : Value} {o : ScaleOutcome} (h : x.scale target = .ok (y, o)) : o = .scaled := by
  cases x with
  | linear z =>
      cases hz : z.scale target.factor with
      | ok w => simp [ScalableValue.scale, hz] at h; simp_all
      | error e2 => simp [ScalableValue.scale, hz] at h
  | byServings zs =>
      cases hidx : target.index with
      | none => simp [ScalableValue.scale, hidx] at h
      | some idx =>
          cases hg : zs[idx]? with
          | none => simp [ScalableValue.scale, hidx, hg] at h
          | some val => simp [ScalableValue.scale, hidx, hg] at h; simp_all

theorem quantityValue_scale_ok_outcome (v : QuantityValue) (target : ScaleTarget)
    {v' : QuantityValue} {o : ScaleOutcome} (h : v.scale target = .ok (v', o)) :
    o = .fixed ∨ o = .scaled := by
  cases v with
  | fixed x =>
      simp only [QuantityValue.scale] at h
      simp at h
      exact Or.inl h.2.symm
  | scalable x =>
      simp only [QuantityValue.scale] at h
      cases hx : x.scale target with
      | error e => rw [hx] at h; simp_all
      | ok p =>
          rw [hx] at h
          cases p with
          | mk y o2 =>
              simp at h
              exact Or.inr (h.2 ▸ scalableValue_scale_ok_outcome x target hx)

theorem scale_many_error_frame {T : Type} (target : ScaleTarget) (components : List T)
    (extract : T → Option QuantityValue) (update : T → QuantityValue → T)
    (i : Nat) (e : ScaleError)
    (h : (scale_many target components extract update).2.get? i = some (.error e)) :
    (scale_many target components extract update).1.get? i = components.get? i := by
  induction components generalizing i with
  | nil => simp [scale_many] at h ⊢
  | cons c cs ih =>
      cases i with
      | zero =>
          simp only [scale_many, List.get?] at h ⊢
          cases hx : extract c with
          | none => simp [hx] at h
          | some v =>
              cases hs : v.scale target with
              | ok p =>
                  cases p with
                  | mk v' o =>
                      simp only [hx, hs] at h
                      injection h with h
                      rcases quantityValue_scale_ok_outcome v target hs with h2 | h2 <;>
                        rw [h2] at h <;> exact ScaleOutcome.noConfusion h
              | error e2 => simp [hx, hs]
      | succ n =>
          simp only [scale_many, List.get?] at h ⊢
          exact ih n h

/-! ## Claim theorems for the scaling engine -/

/-- Claim C1: for every recipe and scale target, scale produces one outcome
per component for each of the three kinds, positionally: the outcome lists
have the same lengths as the component lists, the i-th outcome is the
outcome of scaling the i-th component on its own, and a component whose
extracted quantity is absent receives NoQuantity. -/
theorem scale_outcome_alignment {M S : Type} (r : Recipe M S) (t : ScaleTarget)
    (d : ScaledData) (h : (r.scale t).scaled_data = some d) :
    (d.ingredients.length = r.ingredients.length ∧
     d.cookware.length = r.cookware.length ∧
     d.timers.length = r.timers.length) ∧
    (∀ i : Nat,
      d.ingredients[i]? = (r.ingredients[i]?).map (fun c => outcomeOf t c.extractQV) ∧
      d.cookware[i]? = (r.cookware[i]?).map (fun c => outcomeOf t c.quantity) ∧
      d.timers[i]? = (r.timers[i]?).map (fun c => outcomeOf t (some c.quantity.value))) ∧
    (∀ (i : Nat) (c : Ingredient), r.ingredients[i]? = some c → c.quantity = none →
      d.ingredients[i]? = some .noQuantity) ∧
    (∀ (i : Nat) (c : Cookware), r.cookware[i]? = some c → c.quantity = none →
      d.cookware[i]? = some .noQuantity) := by
  simp only [Recipe.scale, ScaledRecipe.scaled_data, Option.some.injEq] at h
  subst h
  refine ⟨⟨?_, ?_, ?_⟩, ?_, ?_, ?_⟩
  · simp [scale_many_snd_eq_map]
  · simp [scale_many_snd_eq_map]
  · simp [scale_many_snd_eq_map]
  · intro i
    refine ⟨?_, ?_, ?_⟩ <;> simp [scale_many_snd_eq_map, List.getElem?_map]
  · intro i c hc hq
    simp [scale_many_snd_eq_map, List.getElem?_map, hc, Ingredient.extractQV, hq, outcomeOf]
  · intro i c hc hq
    simp [scale_many_snd_eq_map, List.getElem?_map, hc, hq, outcomeOf]

/-- Witness for C1 at a one-component recipe of each kind. -/
theorem scale_outcome_alignment_witness :
    ((Recipe.mk "r" () () [⟨none⟩] [⟨none⟩]
        [⟨⟨.fixed (.number 1), none⟩⟩]).scale ⟨2, 4, none⟩).scaled_data =
      some ⟨⟨2, 4, none⟩, [.noQuantity], [.noQuantity], [.fixed]⟩ ∧
    ([ScaleOutcome.noQuantity].length = [Ingredient.mk none].length ∧
     [ScaleOutcome.noQuantity].length = [Cookware.mk none].length ∧
     [ScaleOutcome.fixed].length =
       [Timer.mk ⟨.fixed (.number 1), none⟩].length) :=
  ⟨rfl,
    (scale_outcome_alignment (M := Unit) (S := Unit)
      ⟨"r", (), (), [⟨none⟩], [⟨none⟩], [⟨⟨.fixed (.number 1), none⟩⟩]⟩
      ⟨2, 4, none⟩ ⟨⟨2, 4, none⟩, [.noQuantity], [.noQuantity], [.fixed]⟩ rfl).1⟩

/-- Claim C2: a by-servings scalable value needs target.index; without it
scaling is the NotScalable error, with an out of range index it is the
NotDefined error, and otherwise the element at the index is returned as is
with outcome Scaled. -/
theorem by_servings_scale_spec (v : List Value) (t : ScaleTarget) :
    (t.index = none →
      ScalableValue.scale (.byServings v) t =
        .error (.notScalable (.byServings v)
          "tried to scale a value linearly when it has the scaling defined")) ∧
    (∀ i, t.index = some i → v.length ≤ i →
      ScalableValue.scale (.byServings v) t = .error (.notDefined t (.byServings v))) ∧
    (∀ i (hlt : i < v.length), t.index = some i →
      ScalableValue.scale (.byServings v) t = .ok (v.get ⟨i, hlt⟩, .scaled)) := by
  refine ⟨?_, ?_, ?_⟩
  · intro h
    simp [ScalableValue.scale, h]
  · intro i hi hlen
    simp [ScalableValue.scale, hi, List.getElem?_eq_none hlen]
  · intro i hlt hi
    simp [ScalableValue.scale, hi, List.getElem?_eq_getElem hlt]

/-- Witness for C2: all three branches at concrete values and targets. -/
theorem by_servings_scale_spec_witness :
    ScalableValue.scale (.byServings [.number 1, .number 2]) ⟨1, 2, none⟩ =
      .error (.notScalable (.byServings [.number 1, .number 2])
        "tried to scale a value linearly when it has the scaling defined") ∧
    ScalableValue.scale (.byServings [.number 1, .number 2]) ⟨1, 2, some 5⟩ =
      .error (.notDefined ⟨1, 2, some 5⟩ (.byServings [.number 1, .number 2])) ∧
    ScalableValue.scale (.byServings [.number 1, .number 2]) ⟨1, 2, some 1⟩ =
      .ok (.number 2, .scaled) :=
  ⟨(by_servings_scale_spec [.number 1, .number 2] ⟨1, 2, none⟩).1 rfl,
   (by_servings_scale_spec [.number 1, .number 2] ⟨1, 2, some 5⟩).2.1 5 rfl (by decide),
   (by_servings_scale_spec [.number 1, .number 2] ⟨1, 2, some 1⟩).2.2 1 (by decide) rfl⟩

/-- Claim C8: a quantity value already in fixed form is returned unchanged
with outcome Fixed and never an error, for every target. -/
theorem fixed_value_scale_frame (v : Value) (t : ScaleTarget) :
    QuantityValue.scale (.fixed v) t = .ok (.fixed v, .fixed) := rfl

/-- Claim C9: scaling the recipe obtained through skip_scaling is
observably identical to scaling the original recipe directly: skip_scaling
preserves every component list, and scaling the carried recipe with the
same target gives the very same scaled recipe. -/
theorem skip_scaling_then_scale {M S : Type} (r : Recipe M S) (t : ScaleTarget) :
    (r.skip_scaling).ingredients = r.ingredients ∧
    (r.skip_scaling).cookware = r.cookware ∧
    (r.skip_scaling).timers = r.timers ∧
    (r.skip_scaling).toRecipe.scale t = r.scale t :=
  ⟨rfl, rfl, rfl, rfl⟩

/-- Claim C10: whenever one component scaling fails, the outcome is Error
and that component is carried into the scaled recipe unchanged; only a
successful scale overwrites the stored value. Stated over scale_many, the
single place all three component kinds go through. -/
theorem scale_error_preserves_component {T : Type} (target : ScaleTarget)
    (components : List T) (extract : T → Option QuantityValue)
    (update : T → QuantityValue → T) (i : Nat) (e : ScaleError)
    (h : (scale_many target components extract update).2.get? i = some (.error e)) :
    (scale_many target components extract update).1.get? i = components.get? i :=
  scale_many_error_frame target components extract update i e h

/-- Witness for C10: a text valued linear quantity cannot scale, the
outcome is an error, and the ingredient is left untouched. -/
theorem scale_error_preserves_component_witness :
    (scale_many ⟨1, 2, none⟩
      [Ingredient.mk (some ⟨.scalable (.linear (.text "x")), none⟩)]
      Ingredient.extractQV Ingredient.updateQV).2.get? 0 =
      some (.error (.textValueError (.text "x"))) ∧
    (scale_many ⟨1, 2, none⟩
      [Ingredient.mk (some ⟨.scalable (.linear (.text "x")), none⟩)]
      Ingredient.extractQV Ingredient.updateQV).1.get? 0 =
      some (Ingredient.mk (some ⟨.scalable (.linear (.text "x")), none⟩)) :=
  ⟨rfl,
    scale_error_preserves_component ⟨1, 2, none⟩
      [Ingredient.mk (some ⟨.scalable (.linear (.text "x")), none⟩)]
      Ingredient.extractQV Ingredient.updateQV 0
      (.textValueError (.text "x")) rfl⟩

end Cooklang
